import Mathlib

/-!
Image reference subsystem of the C-Square club backend.

A shallow embedding of `src/config/cloudinary.js` (the upload file filter and
`extractPublicId`), of the two handlers of `src/routes/upload.js`, of the photo
handler of `src/routes/toast.js`, of the global error handler of
`src/server.js` and of the `photo` paths of the schemas in `src/models`, with
the properties the specification states about them.

JavaScript strings are lists of characters; JavaScript values are the type
`JsValue`. Built-in string and array methods (`includes`, `startsWith`,
`split`, `findIndex`, `slice`, `join`, the two regular expressions) are
embedded as the functions of the same name.
-/

namespace CSquare

/-- A JavaScript string, as the list of its characters. -/
abbrev JsString := List Char

/-- The JavaScript values a request can carry: the results of `JSON.parse`
and `undefined`. Numbers are integral. -/
inductive JsValue where
  | undefined : JsValue
  | null : JsValue
  | bool (b : Bool) : JsValue
  | number (n : Int) : JsValue
  | str (s : JsString) : JsValue
  | array (items : List JsValue) : JsValue
  | object (fields : List (JsString × JsValue)) : JsValue

/-! ## Built-in string and array methods -/

/-- The method `s.startsWith(p)`. -/
def startsWith : JsString → JsString → Bool
  | _, [] => true
  | [], _ :: _ => false
  | c :: s, d :: p => c == d && startsWith s p

/-- The method `s.includes(p)`: `p` occurs in `s` as a contiguous substring. -/
def includes : JsString → JsString → Bool
  | [], p => startsWith [] p
  | c :: s, p => startsWith (c :: s) p || includes s p

/-- The method `s.split(sep)` for a one-character separator: the segments between the
occurrences of `sep`; the empty string gives one empty segment. -/
def split (sep : Char) : JsString → List JsString
  | [] => [[]]
  | c :: s =>
    if c = sep then [] :: split sep s
    else
      match split sep s with
      | [] => [[c]]
      | seg :: segs => (c :: seg) :: segs

/-- Worker of `findIndex`: the scan from position `i`. -/
def findIndexFrom {α : Type} (p : α → Bool) : List α → Nat → Int
  | [], _ => -1
  | x :: xs, i => if p x then (i : Int) else findIndexFrom p xs (i + 1)

/-- The method `xs.findIndex(p)`: the position of the first element satisfying `p`, or
`-1` when there is none. -/
def findIndex {α : Type} (p : α → Bool) (xs : List α) : Int :=
  findIndexFrom p xs 0

/-- The method `xs.slice(start)` for a start position that is not negative. -/
def slice {α : Type} (xs : List α) (start : Int) : List α :=
  xs.drop start.toNat

/-- The method `xs.join(sep)` on an array of strings. -/
def join (sep : JsString) : List JsString → JsString
  | [] => []
  | [s] => s
  | s :: t :: rest => s ++ sep ++ join sep (t :: rest)

/-- The class `\d` of a regular expression without the unicode flag. -/
def isDigit (c : Char) : Bool := decide ('0' ≤ c) && decide (c ≤ '9')

/-- The test that `seg.match(/^v\d+$/)` is not null: the whole of `seg` is the letter `v`
followed by one or more digits. -/
def matchVersion : JsString → Bool
  | [] => false
  | c :: ds => c == 'v' && !ds.isEmpty && ds.all isDigit

/-- The class `[^/.]`. -/
def notSlashDot (c : Char) : Bool := c != '/' && c != '.'

/-- The pattern `\.[^/.]+$` matches at the head of the string: a dot, then one
or more characters that are neither `/` nor `.`, up to the end. -/
def extensionMatchesHere : JsString → Bool
  | [] => false
  | c :: rest => c == '.' && !rest.isEmpty && rest.all notSlashDot

/-- The call `s.replace(/\.[^/.]+$/, '')`: the leftmost match of the pattern is
replaced by the empty string; without a match the string is unchanged. Because
a match runs to the end of the string, what follows it is empty. -/
def removeExtension : JsString → JsString
  | [] => []
  | c :: rest =>
    if extensionMatchesHere (c :: rest) then [] else c :: removeExtension rest

/-! ## `extractPublicId` (src/config/cloudinary.js) -/

/-- The start index chosen by
`pathAfterUpload[0] && pathAfterUpload[0].match(/^v\d+$/)`. -/
def versionStartIndex (pathAfterUpload : List JsString) : Nat :=
  match pathAfterUpload with
  | [] => 0
  | seg :: _ => if !seg.isEmpty && matchVersion seg then 1 else 0

/-- The helper `extractPublicId(url)`. The guarded block never throws on a string, so its
`catch` branch is not reached. -/
def extractPublicId (url : JsValue) : JsValue :=
  match url with
  | .str s =>
    if s.isEmpty then .null
    else if !includes s "cloudinary.com".toList then .null
    else
      let urlParts := split '/' s
      let uploadIndex := findIndex (fun part => part == "upload".toList) urlParts
      if uploadIndex = -1 then .null
      else
        let pathAfterUpload := slice urlParts (uploadIndex + 1)
        let startIndex := versionStartIndex pathAfterUpload
        let publicIdWithExt := join "/".toList (slice pathAfterUpload startIndex)
        let publicId := removeExtension publicIdWithExt
        .str publicId
  | _ => .null

/-! ## The upload file filter (src/config/cloudinary.js) -/

/-- The file multer hands to the filter; the filter reads its MIME type. -/
structure IncomingFile where
  mimetype : JsString

/-- The arguments the filter passes to its callback `cb(error, accept)`: the
message of the error, or none for `null`, and the acceptance flag. -/
structure FilterCallback where
  error : Option JsString
  accept : Bool

/-- The `fileFilter` of the multer instance `upload`. -/
def fileFilter (file : IncomingFile) : FilterCallback :=
  if startsWith file.mimetype "image/".toList then
    { error := none, accept := true }
  else
    { error := some "Only image files are allowed!".toList, accept := false }

/-! ## The upload routes (src/routes/upload.js) -/

/-- The file the storage engine attaches to the request as `req.file`; the
handler reads its path and its file name. -/
structure StoredFile where
  path : JsString
  filename : JsString

/-- An HTTP answer: the status and the JSON body. `res.json` without
`res.status` answers 200. -/
structure Response where
  status : Nat
  body : JsValue

/-- The handler of `POST /api/upload`, as a function of `req.file`. Nothing in
its guarded block throws, so its `catch` branch is not reached. -/
def uploadHandler (file : Option StoredFile) : Response :=
  match file with
  | none =>
    { status := 400
      body := .object [("success".toList, .bool false),
        ("error".toList, .str "No image file provided".toList)] }
  | some f =>
    { status := 200
      body := .object [("success".toList, .bool true),
        ("data".toList, .object [("url".toList, .str f.path),
          ("public_id".toList, .str f.filename),
          ("secure_url".toList, .str f.path)]),
        ("message".toList, .str "Image uploaded successfully".toList)] }

/-- The property `key` of a value: the first field of that name of an object,
`undefined` otherwise. -/
def JsValue.get (v : JsValue) (key : JsString) : JsValue :=
  match v with
  | .object fields =>
    match fields.find? (fun kv => kv.1 == key) with
    | some kv => kv.2
    | none => .undefined
  | _ => .undefined

/-- The names of the fields of an object. -/
def JsValue.keys (v : JsValue) : List JsString :=
  match v with
  | .object fields => fields.map (fun kv => kv.1)
  | _ => []

/-- The truthiness of a value: `!v` is false. -/
def truthy : JsValue → Bool
  | .undefined => false
  | .null => false
  | .bool b => b
  | .number n => n != 0
  | .str s => !s.isEmpty
  | .array _ => true
  | .object _ => true

mutual
/-- The conversion of a value to a string (`ToString`), or the message of the
`TypeError` it throws. An array is the `,`-join of its items, with null and
undefined items empty; an object is `[object Object]`, and one with an own,
not callable, `toString` property has no primitive value. -/
def toStr : JsValue → Except JsString JsString
  | .undefined => .ok "undefined".toList
  | .null => .ok "null".toList
  | .bool b => .ok (if b then "true".toList else "false".toList)
  | .number n => .ok (toString n).toList
  | .str s => .ok s
  | .array items => toStrItems items
  | .object fields =>
    if fields.any (fun kv => kv.1 == "toString".toList) then
      .error "Cannot convert object to primitive value".toList
    else .ok "[object Object]".toList
/-- The `,`-join of the items of an array. -/
def toStrItems : List JsValue → Except JsString JsString
  | [] => .ok []
  | v :: rest =>
    let item : Except JsString JsString :=
      match v with
      | .undefined => .ok []
      | .null => .ok []
      | w => toStr w
    match rest with
    | [] => item
    | _ :: _ =>
      match item, toStrItems rest with
      | .ok a, .ok b => .ok (a ++ ',' :: b)
      | .error e, _ => .error e
      | .ok _, .error e => .error e
end

/-- A line terminator, which the `.` of a regular expression does not match. -/
def lineTerminator (c : Char) : Bool :=
  c == '\n' || c == '\r' || c == Char.ofNat 0x2028 || c == Char.ofNat 0x2029

/-- The lower-case word `word` matches at the head of the string, letter case
ignored as under the flag `i`; the result is what follows the match. -/
def matchWordIgnoreCase : JsString → JsString → Option JsString
  | s, [] => some s
  | [], _ :: _ => none
  | c :: s, d :: word => if c.toLower == d then matchWordIgnoreCase s word else none

/-- The alternatives of the group `(jpg|jpeg|png|gif|webp|svg)`. -/
def imageExtensionWords : List JsString :=
  ["jpg".toList, "jpeg".toList, "png".toList, "gif".toList, "webp".toList, "svg".toList]

/-- The tail `(\?.*)?$` matches at the head of the string: the string ends
here, or a `?` follows and no line terminator up to the end. -/
def queryToEnd : JsString → Bool
  | [] => true
  | c :: rest => c == '?' && rest.all (fun d => !lineTerminator d)

/-- The pattern `\.(jpg|jpeg|png|gif|webp|svg)(\?.*)?$` with the flag `i`
matches at the head of the string. -/
def imageExtensionsMatchesHere : JsString → Bool
  | [] => false
  | c :: rest =>
    c == '.' && imageExtensionWords.any (fun word =>
      match matchWordIgnoreCase rest word with
      | some tail => queryToEnd tail
      | none => false)

/-- The call `imageExtensions.test(text)`: the pattern matches at some position. -/
def imageExtensionsTest : JsString → Bool
  | [] => false
  | c :: rest => imageExtensionsMatchesHere (c :: rest) || imageExtensionsTest rest

/-- The call `url.includes(p)` with a string `p`: the substring test on a
string, the membership test on an array, and on every other value, which has
no callable `includes`, a `TypeError` with the message given. -/
def includesMethod (url : JsValue) (p : JsString) : Except JsString Bool :=
  match url with
  | .str s => .ok (includes s p)
  | .array items =>
    .ok (items.any (fun v =>
      match v with
      | .str t => t == p
      | _ => false))
  | _ => .error "url.includes is not a function".toList

/-- The call `url.startsWith(p)`: the test on a string; every other value has
no callable `startsWith`, a `TypeError` with the message given. -/
def startsWithMethod (url : JsValue) (p : JsString) : Except JsString Bool :=
  match url with
  | .str s => .ok (startsWith s p)
  | _ => .error "url.startsWith is not a function".toList

/-- The operator `a || b` on operands that can throw: `b` is evaluated only when `a` is
false. -/
def orElseLazy (a : Except JsString Bool) (b : Unit → Except JsString Bool) :
    Except JsString Bool :=
  match a with
  | .ok true => .ok true
  | .ok false => b ()
  | .error e => .error e

/-- The value of `isImageUrl` in the handler of `validate-url`, or the message
of the error its evaluation throws. -/
def isImageUrl (url : JsValue) : Except JsString Bool :=
  orElseLazy ((toStr url).map imageExtensionsTest) fun _ =>
  orElseLazy (includesMethod url "cloudinary.com".toList) fun _ =>
  orElseLazy (includesMethod url "imgur.com".toList) fun _ =>
  orElseLazy (includesMethod url "unsplash.com".toList) fun _ =>
  orElseLazy (includesMethod url "githubusercontent.com".toList) fun _ =>
  orElseLazy (includesMethod url "linkedin.com".toList) fun _ =>
  orElseLazy (includesMethod url "twitter.com".toList) fun _ =>
  orElseLazy (includesMethod url "instagram.com".toList) fun _ =>
  orElseLazy (includesMethod url "facebook.com".toList) fun _ =>
  startsWithMethod url "data:image/".toList

/-- The error body `{success: false, error}`. -/
def errorBody (message : JsString) : JsValue :=
  .object [("success".toList, .bool false), ("error".toList, .str message)]

/-- The handler of `POST /api/upload/validate-url`, as a function of the
`url` of the request body. `urlParses` is the URL parser of the runtime:
`new URL(text)` returns for the strings it accepts and throws for the others. -/
def validateUrlHandler (urlParses : JsString → Bool) (url : JsValue) : Response :=
  if !truthy url then
    { status := 400, body := errorBody "URL is required".toList }
  else
    match toStr url with
    | .error _ => { status := 400, body := errorBody "Invalid URL format".toList }
    | .ok text =>
      if !urlParses text then
        { status := 400, body := errorBody "Invalid URL format".toList }
      else
        match isImageUrl url with
        | .ok _ =>
          { status := 200
            body := .object [("success".toList, .bool true),
              ("data".toList, .object [("url".toList, url), ("valid".toList, .bool true)]),
              ("message".toList, .str "URL validated successfully".toList)] }
        | .error message =>
          { status := 500
            body := .object [("success".toList, .bool false),
              ("error".toList, .str "Failed to validate URL".toList),
              ("details".toList, .str message)] }

/-! ## Error answers (src/routes/upload.js, src/routes/toast.js, src/server.js) -/

/-- The error object a handler receives: the properties the handlers read.
The status code is 0 when the error has none. `validationMessages` is the
value of `Object.values(error.errors).map(err => err.message)` and
`duplicateKeys` the value of `Object.keys(error.keyValue)`, each none when its
evaluation throws. -/
structure JsError where
  name : JsString
  message : JsString
  stack : JsString
  code : JsValue
  statusCode : Nat
  validationMessages : Option (List JsValue)
  duplicateKeys : Option (List JsString)

mutual
/-- The value a client reads back from `JSON.stringify`: at every depth the
properties of an object whose value is `undefined` are left out, and an
`undefined` item of an array becomes null. -/
def jsonValue : JsValue → JsValue
  | .array items => .array (jsonItems items)
  | .object fields => .object (jsonFields fields)
  | .undefined => .undefined
  | .null => .null
  | .bool b => .bool b
  | .number n => .number n
  | .str s => .str s
/-- The items of a serialised array. -/
def jsonItems : List JsValue → List JsValue
  | [] => []
  | v :: rest =>
    (match v with
      | .undefined => .null
      | w => jsonValue w) :: jsonItems rest
/-- The fields of a serialised object. -/
def jsonFields : List (JsString × JsValue) → List (JsString × JsValue)
  | [] => []
  | (key, v) :: rest =>
    match v with
    | .undefined => jsonFields rest
    | w => (key, jsonValue w) :: jsonFields rest
end

/-- The body `res.json` sends for an object literal with the fields given. -/
def resJson (fields : List (JsString × JsValue)) : JsValue :=
  .object (jsonFields fields)

/-- The `catch` block of the handler of `POST /api/upload`, under the value of
`process.env.NODE_ENV`, which the block does not read. -/
def uploadCatch (_nodeEnv : Option JsString) (error : JsError) : Response :=
  { status := 500
    body := resJson [("success".toList, .bool false),
      ("error".toList, .str "Failed to upload image".toList),
      ("details".toList, .str error.message)] }

/-- The outer `catch` block of the handler of `POST /api/upload/validate-url`,
under the value of `process.env.NODE_ENV`, which the block does not read. -/
def validateUrlCatch (_nodeEnv : Option JsString) (error : JsError) : Response :=
  { status := 500
    body := resJson [("success".toList, .bool false),
      ("error".toList, .str "Failed to validate URL".toList),
      ("details".toList, .str error.message)] }

/-- The handler of `POST /api/toast/photo`, as a function of `req.file`. -/
def toastPhotoHandler (file : JsValue) : Response :=
  if !truthy file || !truthy (file.get "path".toList) then
    { status := 400
      body := resJson [("success".toList, .bool false),
        ("error".toList, .str "No photo uploaded".toList),
        ("debug".toList, file)] }
  else
    { status := 200
      body := resJson [("success".toList, .bool true),
        ("url".toList, file.get "path".toList),
        ("debug".toList, file)] }

/-- The `catch` block of the handler of `POST /api/toast/photo`, under the
value of `process.env.NODE_ENV`, which the block does not read. -/
def toastPhotoCatch (_nodeEnv : Option JsString) (error : JsError) : Response :=
  { status := 500
    body := resJson [("success".toList, .bool false),
      ("error".toList, .str "Failed to upload photo".toList),
      ("details".toList, .str error.message),
      ("stack".toList, .str error.stack)] }

/-- The test `error.code === 11000`. -/
def isDuplicateKeyCode : JsValue → Bool
  | .number n => n == 11000
  | _ => false

/-- The first element of an array of strings inside a template literal:
`undefined` when the array is empty. -/
def firstKeyText : List JsString → JsString
  | [] => "undefined".toList
  | key :: _ => key

/-- The status `error.statusCode || 500` of the default answer. -/
def defaultStatus (error : JsError) : Nat :=
  if error.statusCode != 0 then error.statusCode else 500

/-- The global error handler of `src/server.js`, under the value of
`process.env.NODE_ENV`; none when the handler itself throws and sends no
answer: when `Object.values` or `Object.keys` throws, and when the status is
outside 100..999, which the response refuses. -/
def globalErrorHandler (nodeEnv : Option JsString) (error : JsError) : Option Response :=
  if error.name == "ValidationError".toList then
    match error.validationMessages with
    | none => none
    | some errors =>
      some { status := 400
             body := resJson [("error".toList, .str "Validation Error".toList),
               ("details".toList, .array errors)] }
  else if error.name == "CastError".toList then
    some { status := 400
           body := resJson [("error".toList, .str "Invalid ID format".toList)] }
  else if isDuplicateKeyCode error.code then
    match error.duplicateKeys with
    | none => none
    | some keys =>
      some { status := 400
             body := resJson [("error".toList, .str "Duplicate value".toList),
               ("message".toList, .str (firstKeyText keys ++ " already exists".toList))] }
  else if defaultStatus error < 100 || defaultStatus error > 999 then
    none
  else
    some { status := defaultStatus error
           body := resJson (("error".toList,
               .str (if error.message.isEmpty then "Internal Server Error".toList
                 else error.message)) ::
             (if nodeEnv == some "development".toList then
               [("stack".toList, .str error.stack)] else [])) }

/-- The error object `new Error(message)`, with its stack. -/
def plainError (message stack : JsString) : JsError :=
  { name := "Error".toList
    message := message
    stack := stack
    code := .undefined
    statusCode := 0
    validationMessages := none
    duplicateKeys := none }

/-- The answer to an upload whose file the filter rejects: multer passes the
error of the filter to `next`, the handler of the route is not called and the
global error handler answers. None when the filter accepts the file. -/
def uploadRejectedAnswer (nodeEnv : Option JsString) (file : IncomingFile)
    (stack : JsString) : Option Response :=
  match (fileFilter file).error with
  | none => none
  | some message => globalErrorHandler nodeEnv (plainError message stack)

/-- The routers `src/server.js` mounts with `app.use`: the path and the module
of each. -/
def mountedRouters : List (JsString × JsString) :=
  [("/api/events".toList, "./routes/events".toList),
   ("/api/team".toList, "./routes/team".toList),
   ("/api/contact".toList, "./routes/contact".toList),
   ("/api/auth".toList, "./routes/auth".toList),
   ("/api/gallery".toList, "./routes/gallery".toList),
   ("/api/faculty".toList, "./routes/faculty".toList),
   ("/api/upload".toList, "./routes/upload".toList),
   ("/api".toList, "./routes/imageProxy".toList)]

/-! ## The `photo` paths of the schemas (src/models) -/

/-- The custom validator of the path `photo` of the faculty member schema;
`isValidImageUrl` is the classifier of `utils/urlValidation`. -/
def facultyPhotoValidator (isValidImageUrl : JsString → Bool) (v : JsString) : Bool :=
  if v.isEmpty then true else isValidImageUrl v

/-- The validation of the path `photo` of a faculty member: none is an absent
photo, on which no validator runs; a string, already cast and trimmed, goes
through the custom validator. The path is not required. -/
def facultyPhotoPathValid (isValidImageUrl : JsString → Bool) (photo : Option JsString) :
    Bool :=
  match photo with
  | none => true
  | some v => facultyPhotoValidator isValidImageUrl v

/-- The validation of the path `photo` of a toast: the path has the type
String, a trim and a default, and no validator; it is not required. -/
def toastPhotoPathValid (photo : Option JsString) : Bool :=
  match photo with
  | none => true
  | some _ => true

/-! ## Notions the specification uses to state its properties -/

/-- The URL the upload gateway returns, in the shape the specification gives:
`https://res.cloudinary.com/<cloud>/image/upload/v<digits>/<public_id>.<ext>`. -/
def gatewayUrl (cloud digits publicId ext : JsString) : JsString :=
  "https://res.cloudinary.com/".toList ++ (cloud ++ ("/image/upload/v".toList ++
    (digits ++ '/' :: (publicId ++ '.' :: ext))))

/-- The host of an absolute URL `scheme://host/path`: the text between the
`//` and the next `/`. -/
def urlHost (url : JsString) : JsString :=
  (split '/' url).getD 2 []

/-- The method `s.endsWith(p)`. -/
def endsWith (s p : JsString) : Bool := startsWith s.reverse p.reverse

/-- A host of the media CDN's domain: `cloudinary.com` or one of its
subdomains. -/
def isCloudinaryHost (host : JsString) : Bool :=
  host == "cloudinary.com".toList || endsWith host ".cloudinary.com".toList

/-- The string with its last dot and everything after it removed; a string
without a dot is unchanged. -/
def dropFromLastDot : JsString → JsString
  | [] => []
  | c :: rest =>
    if c == '.' && !rest.contains '.' then [] else c :: dropFromLastDot rest

/-- A version tag: the letter `v` followed by one or more decimal digits and
nothing else. -/
def IsVersionTag (seg : JsString) : Prop :=
  ∃ ds : JsString, seg = 'v' :: ds ∧ ds ≠ [] ∧ ∀ c ∈ ds, '0' ≤ c ∧ c ≤ '9'

/-- The value is a string. -/
def JsValue.isStr : JsValue → Bool
  | .str _ => true
  | _ => false

/-- The value is the boolean `false`. -/
def JsValue.isFalse : JsValue → Bool
  | .bool b => !b
  | _ => false

/-- The error envelope of the specification, `{success: false, error: string,
details?: string}` with no other fields: every field is one of the three,
`success` is false, `error` is a string, and `details` is absent or a
string. -/
def isErrorEnvelope (body : JsValue) : Bool :=
  body.keys.all (fun k =>
    k == "success".toList || k == "error".toList || k == "details".toList) &&
  (body.get "success".toList).isFalse &&
  (body.get "error".toList).isStr &&
  (!body.keys.contains "details".toList || (body.get "details".toList).isStr)

/-- An error as a failed call to the media host raises it, used as a concrete
input. -/
def sampleError : JsError :=
  { name := "Error".toList
    message := "connect ETIMEDOUT".toList
    stack := "Error: connect ETIMEDOUT\n    at TCPConnectWrap.afterConnect".toList
    code := .str "ETIMEDOUT".toList
    statusCode := 0
    validationMessages := none
    duplicateKeys := none }

/-! ## Lemmas on the built-in methods -/

theorem startsWith_iff_isPrefix (s p : JsString) :
    startsWith s p = true ↔ List.IsPrefix p s := by
  induction s generalizing p with
  | nil =>
    cases p with
    | nil => simp [startsWith]
    | cons d p => simp [startsWith]
  | cons c s ih =>
    cases p with
    | nil => simp [startsWith]
    | cons d p =>
      simp only [startsWith, Bool.and_eq_true, beq_iff_eq, ih, List.cons_prefix_cons]
      constructor
      · rintro ⟨h1, h2⟩; exact ⟨h1.symm, h2⟩
      · rintro ⟨h1, h2⟩; exact ⟨h1.symm, h2⟩

theorem includes_iff_isInfix (s p : JsString) :
    includes s p = true ↔ List.IsInfix p s := by
  induction s with
  | nil =>
    simp only [includes, startsWith_iff_isPrefix, List.prefix_nil, List.infix_nil]
  | cons c s ih =>
    simp only [includes, Bool.or_eq_true, startsWith_iff_isPrefix, ih, List.infix_cons_iff]

theorem split_ne_nil (sep : Char) (s : JsString) : split sep s ≠ [] := by
  induction s with
  | nil => simp [split]
  | cons c s ih =>
    simp only [split]
    split_ifs
    · simp
    · cases h : split sep s with
      | nil => simp
      | cons seg segs => simp

theorem split_append_sep (sep : Char) (a b : JsString) :
    split sep (a ++ sep :: b) = split sep a ++ split sep b := by
  induction a with
  | nil => simp [split]
  | cons c a ih =>
    rw [List.cons_append]
    simp only [split]
    split_ifs
    · simp [ih]
    · rw [ih]
      cases h : split sep a with
      | nil => exact absurd h (split_ne_nil sep a)
      | cons seg segs => simp

theorem split_of_not_mem (sep : Char) (s : JsString) (h : sep ∉ s) :
    split sep s = [s] := by
  induction s with
  | nil => simp [split]
  | cons c s ih =>
    simp only [List.mem_cons, not_or] at h
    have hc : c ≠ sep := fun e => h.1 e.symm
    simp [split, hc, ih h.2]

theorem join_cons_head (sep : JsString) (c : Char) (seg : JsString) (segs : List JsString) :
    join sep ((c :: seg) :: segs) = c :: join sep (seg :: segs) := by
  cases segs with
  | nil => simp [join]
  | cons t rest => simp [join]

theorem join_split (sep : Char) (s : JsString) : join [sep] (split sep s) = s := by
  induction s with
  | nil => simp [split, join]
  | cons c s ih =>
    simp only [split]
    cases h : split sep s with
    | nil => exact absurd h (split_ne_nil sep s)
    | cons seg segs =>
      rw [h] at ih
      split_ifs with hc
      · simp [join, ih, hc]
      · simp [join_cons_head, ih]

theorem findIndexFrom_none {α : Type} (p : α → Bool) (xs : List α) (i : Nat)
    (h : ∀ x ∈ xs, p x = false) : findIndexFrom p xs i = -1 := by
  induction xs generalizing i with
  | nil => simp [findIndexFrom]
  | cons x xs ih =>
    have hx : p x = false := h x (List.mem_cons_self _ _)
    simp only [findIndexFrom, hx, Bool.false_eq_true, if_false]
    exact ih _ (fun y hy => h y (List.mem_cons_of_mem _ hy))

theorem findIndexFrom_first {α : Type} (p : α → Bool) (pre : List α) (x : α)
    (rest : List α) (i : Nat) (hpre : ∀ y ∈ pre, p y = false) (hx : p x = true) :
    findIndexFrom p (pre ++ x :: rest) i = ((i + pre.length : Nat) : Int) := by
  induction pre generalizing i with
  | nil => simp [findIndexFrom, hx]
  | cons y pre ih =>
    have hy : p y = false := hpre y (List.mem_cons_self _ _)
    have hrec := ih (i + 1) (fun z hz => hpre z (List.mem_cons_of_mem _ hz))
    rw [List.cons_append]
    simp only [findIndexFrom, hy, Bool.false_eq_true, if_false, hrec, List.length_cons]
    congr 1
    omega

theorem removeExtension_append_ext (p e : JsString) (hne : e ≠ [])
    (hall : ∀ c ∈ e, c ≠ '/' ∧ c ≠ '.') : removeExtension (p ++ '.' :: e) = p := by
  have hE : e.all notSlashDot = true := by
    simp only [List.all_eq_true, notSlashDot, Bool.and_eq_true, bne_iff_ne]
    exact hall
  induction p with
  | nil =>
    have : e.isEmpty = false := by cases e <;> simp_all
    simp [removeExtension, extensionMatchesHere, hE, this]
  | cons c p ih =>
    have : (p ++ '.' :: e).all notSlashDot = false := by
      simp [notSlashDot]
    simp [removeExtension, extensionMatchesHere, this, ih]

theorem removeExtension_eq_self (s : JsString)
    (h : ¬ ∃ p e, s = p ++ '.' :: e ∧ e ≠ [] ∧ ∀ c ∈ e, c ≠ '/' ∧ c ≠ '.') :
    removeExtension s = s := by
  induction s with
  | nil => simp [removeExtension]
  | cons c s ih =>
    have hhere : extensionMatchesHere (c :: s) = false := by
      by_contra hm
      simp only [Bool.not_eq_false, extensionMatchesHere, Bool.and_eq_true, beq_iff_eq,
        Bool.not_eq_true', List.all_eq_true, notSlashDot, bne_iff_ne] at hm
      obtain ⟨⟨hc, hs⟩, hall⟩ := hm
      apply h
      refine ⟨[], s, by simp [hc], ?_, hall⟩
      intro hs2
      simp [hs2] at hs
    have hrest : ¬ ∃ p e, s = p ++ '.' :: e ∧ e ≠ [] ∧ ∀ c ∈ e, c ≠ '/' ∧ c ≠ '.' := by
      rintro ⟨p, e, hs, hne, hall⟩
      exact h ⟨c :: p, e, by simp [hs], hne, hall⟩
    simp [removeExtension, hhere, ih hrest]

theorem includes_ne_nil (s p : JsString) (hp : p ≠ []) (h : includes s p = true) :
    s ≠ [] := by
  rintro rfl
  cases p with
  | nil => exact hp rfl
  | cons d p => simp [includes, startsWith] at h

theorem matchVersion_iff (seg : JsString) : matchVersion seg = true ↔ IsVersionTag seg := by
  cases seg with
  | nil => simp [matchVersion, IsVersionTag]
  | cons c ds =>
    simp only [matchVersion, IsVersionTag, Bool.and_eq_true, beq_iff_eq, Bool.not_eq_true',
      List.all_eq_true, isDigit, decide_eq_true_eq, List.cons.injEq]
    constructor
    · rintro ⟨⟨hc, hne⟩, hall⟩
      refine ⟨ds, ⟨hc, rfl⟩, ?_, hall⟩
      intro h
      simp [h] at hne
    · rintro ⟨ds2, ⟨hc, rfl⟩, hne, hall⟩
      refine ⟨⟨hc, ?_⟩, hall⟩
      cases ds with
      | nil => exact absurd rfl hne
      | cons d ds => rfl

theorem versionStartIndex_of_tag (seg : JsString) (rest : List JsString)
    (h : IsVersionTag seg) : versionStartIndex (seg :: rest) = 1 := by
  have hm := (matchVersion_iff seg).2 h
  obtain ⟨ds, rfl, -, -⟩ := h
  simp [versionStartIndex, hm]

theorem versionStartIndex_of_not_tag (seg : JsString) (rest : List JsString)
    (h : ¬ IsVersionTag seg) : versionStartIndex (seg :: rest) = 0 := by
  have hm : matchVersion seg = false := by
    cases hv : matchVersion seg with
    | false => rfl
    | true => exact absurd ((matchVersion_iff seg).1 hv) h
  simp [versionStartIndex, hm]

/-- The result of `extractPublicId` on a string that contains the CDN's domain
and whose first `upload` segment is followed by the segments `rest`. -/
theorem extractPublicId_of_split (s : JsString) (pre rest : List JsString)
    (hcdn : includes s "cloudinary.com".toList = true)
    (hsplit : split '/' s = pre ++ "upload".toList :: rest)
    (hpre : "upload".toList ∉ pre) :
    extractPublicId (.str s) =
      .str (removeExtension (join "/".toList (rest.drop (versionStartIndex rest)))) := by
  have hne : s ≠ [] := includes_ne_nil s _ (by decide) hcdn
  have hemp : s.isEmpty = false := by cases s <;> simp_all
  have hidx : findIndex (fun part => part == "upload".toList) (split '/' s)
      = ((0 + pre.length : Nat) : Int) := by
    rw [hsplit]
    apply findIndexFrom_first
    · intro y hy
      simp only [beq_eq_false_iff_ne, ne_eq]
      rintro rfl
      exact hpre hy
    · simp
  have hslice : slice (split '/' s) (((0 + pre.length : Nat) : Int) + 1) = rest := by
    rw [hsplit]
    have : (((0 + pre.length : Nat) : Int) + 1).toNat = pre.length + 1 := by omega
    simp [slice, this]
  have hne1 : (((0 + pre.length : Nat) : Int)) ≠ -1 := by omega
  simp only [extractPublicId, hemp, hcdn, hidx, hslice, hne1]
  simp [slice]

/-! ## Claims on `extractPublicId` -/

theorem gatewayUrl_split (cloud digits publicId ext : JsString)
    (hdig : ∀ c ∈ digits, '0' ≤ c ∧ c ≤ '9') :
    split '/' (gatewayUrl cloud digits publicId ext) =
      ("https:".toList :: [] :: "res.cloudinary.com".toList :: split '/' cloud ++
        ["image".toList]) ++
      "upload".toList :: ('v' :: digits) :: split '/' (publicId ++ '.' :: ext) := by
  have hv : '/' ∉ 'v' :: digits := by
    simp only [List.mem_cons, not_or]
    refine ⟨by decide, fun h => ?_⟩
    have := (hdig _ h).1
    exact absurd this (by decide)
  have e : gatewayUrl cloud digits publicId ext =
      "https:".toList ++ '/' :: ([] ++ '/' :: ("res.cloudinary.com".toList ++ '/' ::
        (cloud ++ '/' :: ("image".toList ++ '/' :: ("upload".toList ++ '/' ::
          (('v' :: digits) ++ '/' :: (publicId ++ '.' :: ext))))))) := by
    simp [gatewayUrl]
  rw [e]
  simp only [split_append_sep, split_of_not_mem '/' _ hv]
  have h1 : split '/' "https:".toList = ["https:".toList] := by rfl
  have h2 : split '/' "res.cloudinary.com".toList = ["res.cloudinary.com".toList] := by rfl
  have h3 : split '/' "image".toList = ["image".toList] := by rfl
  have h4 : split '/' "upload".toList = ["upload".toList] := by rfl
  have h5 : split '/' [] = [[]] := by rfl
  rw [h1, h2, h3, h4, h5]
  simp

theorem gatewayUrl_includes (cloud digits publicId ext : JsString) :
    includes (gatewayUrl cloud digits publicId ext) "cloudinary.com".toList = true := by
  rw [includes_iff_isInfix]
  refine ⟨"https://res.".toList, '/' :: (cloud ++ ("/image/upload/v".toList ++
    (digits ++ '/' :: (publicId ++ '.' :: ext)))), ?_⟩
  simp [gatewayUrl]

/-- C1 (as amended). Round trip: for every URL
`https://res.cloudinary.com/<cloud>/image/upload/v<digits>/<public_id>.<ext>`
in which no `/`-segment of `<cloud>` is `upload`, `<digits>` is one or more
decimal digits and `<ext>` is a non-empty extension (without `/` and `.`),
`extractPublicId` returns the string `<public_id>`, whatever folders and dots
the identifier has. -/
theorem extractPublicId_gatewayUrl (cloud digits publicId ext : JsString)
    (hcloud : "upload".toList ∉ split '/' cloud)
    (hne : digits ≠ []) (hdig : ∀ c ∈ digits, '0' ≤ c ∧ c ≤ '9')
    (hext : ext ≠ []) (hextc : ∀ c ∈ ext, c ≠ '/' ∧ c ≠ '.') :
    extractPublicId (.str (gatewayUrl cloud digits publicId ext)) = .str publicId := by
  have hpre : "upload".toList ∉ ("https:".toList :: [] :: "res.cloudinary.com".toList ::
      split '/' cloud ++ ["image".toList]) := by
    simp only [List.cons_append, List.mem_cons, List.mem_append, List.mem_singleton, not_or]
    exact ⟨by decide, by decide, by decide, hcloud, by decide⟩
  rw [extractPublicId_of_split _ _ _ (gatewayUrl_includes cloud digits publicId ext)
    (gatewayUrl_split cloud digits publicId ext hdig) hpre]
  rw [versionStartIndex_of_tag _ _ ⟨digits, rfl, hne, hdig⟩]
  have hj : join "/".toList (split '/' (publicId ++ '.' :: ext)) = publicId ++ '.' :: ext :=
    join_split '/' _
  simp only [List.drop_succ_cons, List.drop_zero, hj]
  rw [removeExtension_append_ext publicId ext hext hextc]

/-- Witness of C1: the asset `c-square-club/abc123` uploaded as a `jpg` to the
cloud `demo`. -/
theorem extractPublicId_gatewayUrl_witness :
    extractPublicId (.str (gatewayUrl "demo".toList "1620000000".toList
      "c-square-club/abc123".toList "jpg".toList)) = .str "c-square-club/abc123".toList :=
  extractPublicId_gatewayUrl "demo".toList "1620000000".toList "c-square-club/abc123".toList
    "jpg".toList (by decide) (by decide) (by decide) (by decide) (by decide)

/-- C1 fails as stated: with the cloud name `upload` the URL has the gateway's
shape, and the identifier extracted from it is not the asset's
`c-square-club/abc123` but `image/upload/v1/c-square-club/abc123`. -/
theorem extractPublicId_gatewayUrl_cloud_upload :
    gatewayUrl "upload".toList "1".toList "c-square-club/abc123".toList "jpg".toList =
      "https://res.cloudinary.com/upload/image/upload/v1/c-square-club/abc123.jpg".toList ∧
    extractPublicId (.str (gatewayUrl "upload".toList "1".toList
      "c-square-club/abc123".toList "jpg".toList)) =
      .str "image/upload/v1/c-square-club/abc123".toList ∧
    extractPublicId (.str (gatewayUrl "upload".toList "1".toList
      "c-square-club/abc123".toList "jpg".toList)) ≠ .str "c-square-club/abc123".toList := by
  refine ⟨by rfl, by rfl, ?_⟩
  intro h
  have h2 : extractPublicId (.str (gatewayUrl "upload".toList "1".toList
      "c-square-club/abc123".toList "jpg".toList)) =
      .str "image/upload/v1/c-square-club/abc123".toList := by rfl
  rw [h2] at h
  injection h with h3
  exact absurd h3 (by decide)

/-- C2 fails as stated: the specification's first example URL, on the host
`cdn.example.com`, does not contain `cloudinary.com`, and `extractPublicId`
returns null for it, not `club/folder/photo`. -/
theorem extractPublicId_cdn_example_null :
    extractPublicId (.str
      "https://cdn.example.com/image/upload/v1620000000/club/folder/photo.jpg".toList) = .null ∧
    extractPublicId (.str
      "https://cdn.example.com/image/upload/v1620000000/club/folder/photo.jpg".toList) ≠
      .str "club/folder/photo".toList := by
  refine ⟨by rfl, ?_⟩
  intro h
  have h2 : extractPublicId (.str
      "https://cdn.example.com/image/upload/v1620000000/club/folder/photo.jpg".toList) =
      .null := by rfl
  rw [h2] at h
  cases h

/-- C2 (as amended). On the host `res.cloudinary.com` the two example paths
give `club/folder/photo` and, without a version segment, `club/photo`; on the
host `cdn.example.com` both give null. -/
theorem extractPublicId_examples :
    extractPublicId (.str
      "https://res.cloudinary.com/image/upload/v1620000000/club/folder/photo.jpg".toList) =
      .str "club/folder/photo".toList ∧
    extractPublicId (.str "https://res.cloudinary.com/image/upload/club/photo.png".toList) =
      .str "club/photo".toList ∧
    extractPublicId (.str
      "https://cdn.example.com/image/upload/v1620000000/club/folder/photo.jpg".toList) = .null ∧
    extractPublicId (.str "https://cdn.example.com/image/upload/club/photo.png".toList) =
      .null :=
  ⟨by rfl, by rfl, by rfl, by rfl⟩

/-- C3, the failing input. The host of
`https://other-host.com/cloudinary.com/upload/x.jpg` is `other-host.com`, not a
host of the CDN's domain, so the claim, and the comment of the check, give
null; the check looks for `cloudinary.com` anywhere in the string, lets this
URL through, and `extractPublicId` returns `x`. -/
theorem extractPublicId_other_host_not_null :
    urlHost "https://other-host.com/cloudinary.com/upload/x.jpg".toList =
      "other-host.com".toList ∧
    isCloudinaryHost (urlHost "https://other-host.com/cloudinary.com/upload/x.jpg".toList) =
      false ∧
    extractPublicId (.str "https://other-host.com/cloudinary.com/upload/x.jpg".toList) =
      .str "x".toList ∧
    extractPublicId (.str "https://other-host.com/cloudinary.com/upload/x.jpg".toList) ≠
      .null := by
  refine ⟨by rfl, by rfl, by rfl, ?_⟩
  intro h
  have h2 : extractPublicId (.str
      "https://other-host.com/cloudinary.com/upload/x.jpg".toList) = .str "x".toList := by rfl
  rw [h2] at h
  cases h

/-- What the check does reject: for every string in which `cloudinary.com`
occurs nowhere (host, path or query), `extractPublicId` returns null. -/
theorem extractPublicId_null_of_not_infix (s : JsString)
    (h : ¬ List.IsInfix "cloudinary.com".toList s) : extractPublicId (.str s) = .null := by
  have hinc : includes s "cloudinary.com".toList = false := by
    cases hi : includes s "cloudinary.com".toList with
    | false => rfl
    | true => exact absurd ((includes_iff_isInfix _ _).1 hi) h
  simp only [extractPublicId, hinc]
  simp

/-- The example of the specification, `https://other-host.com/whatever.jpg`,
gives null. -/
theorem extractPublicId_null_of_not_infix_witness :
    extractPublicId (.str "https://other-host.com/whatever.jpg".toList) = .null :=
  extractPublicId_null_of_not_infix "https://other-host.com/whatever.jpg".toList
    (fun h => absurd ((includes_iff_isInfix _ _).2 h) (by decide))

/-- C4. `extractPublicId` is a total function whose result on every value is
null or a string; on every value that is not a string, and on the empty
string, the result is null. -/
theorem extractPublicId_total (v : JsValue) :
    (extractPublicId v = .null ∨ ∃ s, extractPublicId v = .str s) ∧
    ((∀ s, v ≠ .str s) → extractPublicId v = .null) ∧
    extractPublicId (.str []) = .null ∧
    extractPublicId .null = .null ∧ extractPublicId .undefined = .null ∧
    extractPublicId (.number 42) = .null := by
  refine ⟨?_, ?_, by rfl, by rfl, by rfl, by rfl⟩
  · cases v with
    | str s =>
      simp only [extractPublicId]
      split_ifs
      · exact Or.inl rfl
      · exact Or.inl rfl
      · exact Or.inl rfl
      · exact Or.inr ⟨_, rfl⟩
    | _ => exact Or.inl rfl
  · intro h
    cases v with
    | str s => exact absurd rfl (h s)
    | _ => rfl

/-- C7. For every string that, split on `/`, has no segment equal to `upload`,
`extractPublicId` returns null. -/
theorem extractPublicId_null_of_no_upload (s : JsString)
    (h : "upload".toList ∉ split '/' s) : extractPublicId (.str s) = .null := by
  have hidx : findIndex (fun part => part == "upload".toList) (split '/' s) = -1 := by
    apply findIndexFrom_none
    intro y hy
    simp only [beq_eq_false_iff_ne, ne_eq]
    rintro rfl
    exact h hy
  simp only [extractPublicId, hidx]
  split_ifs <;> rfl

/-- Witness of C7: a CDN URL in which `upload` occurs only inside the longer
segments `uploads` and `upload.jpg`. -/
theorem extractPublicId_null_of_no_upload_witness :
    extractPublicId (.str "https://res.cloudinary.com/demo/uploads/upload.jpg".toList) = .null :=
  extractPublicId_null_of_no_upload "https://res.cloudinary.com/demo/uploads/upload.jpg".toList
    (by decide)

/-- C5 fails as stated: after the marker and the version of
`https://res.cloudinary.com/demo/image/upload/v1/my.folder/photo` the segments
join to `my.folder/photo`, whose last dot and everything after it removed is
`my`; `extractPublicId` returns `my.folder/photo`, since what follows the last
dot contains a `/`. -/
theorem extractPublicId_dot_in_folder :
    extractPublicId (.str
      "https://res.cloudinary.com/demo/image/upload/v1/my.folder/photo".toList) =
      .str "my.folder/photo".toList ∧
    dropFromLastDot (join "/".toList ["my.folder".toList, "photo".toList]) = "my".toList ∧
    extractPublicId (.str
      "https://res.cloudinary.com/demo/image/upload/v1/my.folder/photo".toList) ≠
      .str (dropFromLastDot (join "/".toList ["my.folder".toList, "photo".toList])) := by
  refine ⟨by rfl, by rfl, ?_⟩
  intro h
  have h2 : extractPublicId (.str
      "https://res.cloudinary.com/demo/image/upload/v1/my.folder/photo".toList) =
      .str "my.folder/photo".toList := by rfl
  have h3 : dropFromLastDot (join "/".toList ["my.folder".toList, "photo".toList]) =
      "my".toList := by rfl
  rw [h2, h3] at h
  injection h with h4
  exact absurd h4 (by decide)

/-- C5 (as amended). For every string containing `cloudinary.com` whose first
`upload` segment is followed by the segments `rest`, let `joined` be the
`/`-join of `rest` without its skipped version segment. When `joined` ends in
a dot followed by one or more characters that are neither `/` nor `.`, the
result is `joined` without that suffix; otherwise the result is `joined`
itself. -/
theorem extractPublicId_extension (s : JsString) (pre rest : List JsString)
    (hcdn : includes s "cloudinary.com".toList = true)
    (hsplit : split '/' s = pre ++ "upload".toList :: rest)
    (hpre : "upload".toList ∉ pre) :
    (∀ p e : JsString,
      join "/".toList (rest.drop (versionStartIndex rest)) = p ++ '.' :: e →
      e ≠ [] → (∀ c ∈ e, c ≠ '/' ∧ c ≠ '.') →
      extractPublicId (.str s) = .str p) ∧
    ((¬ ∃ p e : JsString,
        join "/".toList (rest.drop (versionStartIndex rest)) = p ++ '.' :: e ∧
        e ≠ [] ∧ ∀ c ∈ e, c ≠ '/' ∧ c ≠ '.') →
      extractPublicId (.str s) =
        .str (join "/".toList (rest.drop (versionStartIndex rest)))) := by
  rw [extractPublicId_of_split s pre rest hcdn hsplit hpre]
  constructor
  · intro p e hj hne hall
    rw [hj, removeExtension_append_ext p e hne hall]
  · intro hno
    rw [removeExtension_eq_self _ hno]

/-- Witness of C5: of the file name `photo.min.jpg` only `.jpg` is removed. -/
theorem extractPublicId_extension_witness :
    extractPublicId (.str
      "https://res.cloudinary.com/demo/image/upload/v1/club/photo.min.jpg".toList) =
      .str "club/photo.min".toList :=
  (extractPublicId_extension
    "https://res.cloudinary.com/demo/image/upload/v1/club/photo.min.jpg".toList
    ["https:".toList, [], "res.cloudinary.com".toList, "demo".toList, "image".toList]
    ["v1".toList, "club".toList, "photo.min.jpg".toList]
    (by decide) (by rfl) (by decide)).1 "club/photo.min".toList "jpg".toList
    (by rfl) (by decide) (by decide)

/-- C6. For every string containing `cloudinary.com` whose first `upload`
segment is followed by a segment `first` and then the segments `rest`: when
`first` is a version tag it is dropped and the result is built from `rest`
alone, all of `rest` kept; when it is not, nothing is dropped and the result
is built from `first` and `rest`. The segments `v12a`, `version1` and `v` are
not version tags. -/
theorem extractPublicId_version (s : JsString) (pre : List JsString) (first : JsString)
    (rest : List JsString)
    (hcdn : includes s "cloudinary.com".toList = true)
    (hsplit : split '/' s = pre ++ "upload".toList :: first :: rest)
    (hpre : "upload".toList ∉ pre) :
    (IsVersionTag first →
      extractPublicId (.str s) = .str (removeExtension (join "/".toList rest))) ∧
    (¬ IsVersionTag first →
      extractPublicId (.str s) = .str (removeExtension (join "/".toList (first :: rest)))) ∧
    ¬ IsVersionTag "v12a".toList ∧ ¬ IsVersionTag "version1".toList ∧
    ¬ IsVersionTag "v".toList := by
  rw [extractPublicId_of_split s pre (first :: rest) hcdn hsplit hpre]
  refine ⟨?_, ?_, ?_, ?_, ?_⟩
  · intro h
    rw [versionStartIndex_of_tag first rest h]
    rfl
  · intro h
    rw [versionStartIndex_of_not_tag first rest h]
    rfl
  · exact fun h => absurd ((matchVersion_iff _).2 h) (by decide)
  · exact fun h => absurd ((matchVersion_iff _).2 h) (by decide)
  · exact fun h => absurd ((matchVersion_iff _).2 h) (by decide)

/-- Witness of C6: the first segment `v12a` is kept and so is the later
version-like segment `v2`. -/
theorem extractPublicId_version_witness :
    extractPublicId (.str
      "https://res.cloudinary.com/demo/image/upload/v12a/v2/photo.jpg".toList) =
      .str "v12a/v2/photo".toList :=
  (extractPublicId_version
    "https://res.cloudinary.com/demo/image/upload/v12a/v2/photo.jpg".toList
    ["https:".toList, [], "res.cloudinary.com".toList, "demo".toList, "image".toList]
    "v12a".toList ["v2".toList, "photo.jpg".toList]
    (by decide) (by rfl) (by decide)).2.1
    (fun h => absurd ((matchVersion_iff _).2 h) (by decide))

/-- The first of two version tags is dropped, the second kept. -/
theorem extractPublicId_version_twice :
    extractPublicId (.str
      "https://res.cloudinary.com/demo/image/upload/v1/v2/photo.jpg".toList) =
      .str "v2/photo".toList := by
  rfl

/-! ## Claims on the upload gateway -/

/-- C8. The file filter accepts a file if and only if its MIME type starts
with `image/`: for such a file it calls back with no error and `true`, for
every other one with the error `Only image files are allowed!` and `false`. -/
theorem fileFilter_accepts_iff (file : IncomingFile) :
    ((fileFilter file).accept = true ↔ List.IsPrefix "image/".toList file.mimetype) ∧
    (List.IsPrefix "image/".toList file.mimetype →
      fileFilter file = { error := none, accept := true }) ∧
    (¬ List.IsPrefix "image/".toList file.mimetype →
      fileFilter file =
        { error := some "Only image files are allowed!".toList, accept := false }) ∧
    fileFilter { mimetype := "text/plain".toList } =
      { error := some "Only image files are allowed!".toList, accept := false } ∧
    fileFilter { mimetype := "image/png".toList } = { error := none, accept := true } := by
  have key := startsWith_iff_isPrefix file.mimetype "image/".toList
  refine ⟨?_, ?_, ?_, by rfl, by rfl⟩
  · rw [← key]
    unfold fileFilter
    cases h : startsWith file.mimetype "image/".toList <;> simp
  · intro h
    unfold fileFilter
    rw [key.2 h]
    rfl
  · intro h
    have hf : startsWith file.mimetype "image/".toList = false := by
      cases hs : startsWith file.mimetype "image/".toList with
      | false => rfl
      | true => exact absurd (key.1 hs) h
    unfold fileFilter
    rw [hf]
    rfl

/-- C9. Without a file the upload handler answers 400 with
`{success: false, error: 'No image file provided'}`; for every attached file
it answers 200 with a body of the fields `success`, `data` and `message`, where
`success` is true and `data` has exactly `url`, `public_id` and `secure_url`:
`url` and `secure_url` are the file's path and `public_id` its file name. -/
theorem uploadHandler_response :
    uploadHandler none =
      { status := 400
        body := .object [("success".toList, .bool false),
          ("error".toList, .str "No image file provided".toList)] } ∧
    ∀ f : StoredFile,
      (uploadHandler (some f)).status = 200 ∧
      (uploadHandler (some f)).body.keys =
        ["success".toList, "data".toList, "message".toList] ∧
      (uploadHandler (some f)).body.get "success".toList = .bool true ∧
      ((uploadHandler (some f)).body.get "data".toList).keys =
        ["url".toList, "public_id".toList, "secure_url".toList] ∧
      ((uploadHandler (some f)).body.get "data".toList).get "url".toList = .str f.path ∧
      ((uploadHandler (some f)).body.get "data".toList).get "secure_url".toList =
        .str f.path ∧
      ((uploadHandler (some f)).body.get "data".toList).get "public_id".toList =
        .str f.filename ∧
      (uploadHandler (some f)).body.get "message".toList =
        .str "Image uploaded successfully".toList :=
  ⟨by rfl, fun _ => ⟨by rfl, by rfl, by rfl, by rfl, by rfl, by rfl, by rfl, by rfl⟩⟩

/-! ## Claims on `validate-url` -/

theorem isImageUrl_str (s : JsString) : ∃ b, isImageUrl (.str s) = .ok b := by
  have step : ∀ (a : Bool) (f : Unit → Except JsString Bool),
      (∃ b, f () = .ok b) → ∃ b, orElseLazy (.ok a) f = .ok b := by
    intro a f hf
    cases a with
    | true => exact ⟨true, rfl⟩
    | false => exact hf
  unfold isImageUrl
  simp only [toStr, includesMethod, startsWithMethod, Except.map]
  repeat (first | exact ⟨_, rfl⟩ | apply step)

/-- On a string the handler answers 400 exactly when the string is empty or
does not parse as a URL, and otherwise answers 200 with the same string and
`valid: true`, whatever the image heuristic says. -/
theorem validateUrlHandler_str (urlParses : JsString → Bool) (s : JsString) :
    ((validateUrlHandler urlParses (.str s)).status = 400 ↔
      (s = [] ∨ urlParses s = false)) ∧
    (s = [] → validateUrlHandler urlParses (.str s) =
      { status := 400, body := errorBody "URL is required".toList }) ∧
    (s ≠ [] → urlParses s = false → validateUrlHandler urlParses (.str s) =
      { status := 400, body := errorBody "Invalid URL format".toList }) ∧
    (s ≠ [] → urlParses s = true → validateUrlHandler urlParses (.str s) =
      { status := 200
        body := .object [("success".toList, .bool true),
          ("data".toList, .object [("url".toList, .str s), ("valid".toList, .bool true)]),
          ("message".toList, .str "URL validated successfully".toList)] }) := by
  obtain ⟨b, hb⟩ := isImageUrl_str s
  cases s with
  | nil =>
    refine ⟨?_, ?_, ?_, ?_⟩
    · simp [validateUrlHandler, truthy]
    · intro _; rfl
    · intro h; exact absurd rfl h
    · intro h; exact absurd rfl h
  | cons c s =>
    cases hp : urlParses (c :: s) with
    | false =>
      refine ⟨?_, ?_, ?_, ?_⟩
      · simp [validateUrlHandler, truthy, toStr, hp]
      · intro h; cases h
      · intro _ _; simp [validateUrlHandler, truthy, toStr, hp]
      · intro _ h; cases h
    | true =>
      refine ⟨?_, ?_, ?_, ?_⟩
      · simp [validateUrlHandler, truthy, toStr, hp, hb]
      · intro h; cases h
      · intro _ h; cases h
      · intro _ _; simp [validateUrlHandler, truthy, toStr, hp, hb]

/-- C10, the failing input. The body `{"url": ["http://a.com"]}` has a `url`
that is present and whose text `http://a.com` a URL parser accepts; the
handler answers neither 400 nor success but 500, because the array has no
method `startsWith`. -/
theorem validateUrlHandler_array (urlParses : JsString → Bool)
    (h : urlParses "http://a.com".toList = true) :
    truthy (.array [.str "http://a.com".toList]) = true ∧
    toStr (.array [.str "http://a.com".toList]) = .ok "http://a.com".toList ∧
    validateUrlHandler urlParses (.array [.str "http://a.com".toList]) =
      { status := 500
        body := .object [("success".toList, .bool false),
          ("error".toList, .str "Failed to validate URL".toList),
          ("details".toList, .str "url.startsWith is not a function".toList)] } := by
  refine ⟨by rfl, by rfl, ?_⟩
  have ht : toStr (.array [.str "http://a.com".toList]) = .ok "http://a.com".toList := by rfl
  have hi : isImageUrl (.array [.str "http://a.com".toList]) =
      .error "url.startsWith is not a function".toList := by rfl
  simp only [validateUrlHandler, truthy, ht, h, hi]
  rfl

/-- Witness of the failing input of C10, with a parser that accepts the
strings starting with `http://`. -/
theorem validateUrlHandler_array_witness :
    (validateUrlHandler (fun s => startsWith s "http://".toList)
      (.array [.str "http://a.com".toList])).status = 500 :=
  congrArg Response.status
    (validateUrlHandler_array (fun s => startsWith s "http://".toList) (by rfl)).2.2

/-! ## Claims on the error answers -/

/-- C11 fails as stated: with `NODE_ENV` set to `production` the 500 answers of
the upload handler and of the validate-url handler carry the message of the
upstream error as `details`, and the 500 answer of the toast photo handler
carries its stack as `stack`. -/
theorem production_answers_carry_details :
    (uploadCatch (some "production".toList) sampleError).status = 500 ∧
    (uploadCatch (some "production".toList) sampleError).body.get "details".toList =
      .str "connect ETIMEDOUT".toList ∧
    (validateUrlCatch (some "production".toList) sampleError).status = 500 ∧
    (validateUrlCatch (some "production".toList) sampleError).body.get "details".toList =
      .str "connect ETIMEDOUT".toList ∧
    (toastPhotoCatch (some "production".toList) sampleError).status = 500 ∧
    (toastPhotoCatch (some "production".toList) sampleError).body.get "stack".toList =
      .str "Error: connect ETIMEDOUT\n    at TCPConnectWrap.afterConnect".toList :=
  ⟨by rfl, by rfl, by rfl, by rfl, by rfl, by rfl⟩

/-- C11 (as amended). In every mode, production included, the 500 answer of
the upload handler and of the validate-url handler is exactly `success: false`,
a fixed `error` and the message of the error raised as `details`, without a
stack trace; the 500 answer of the toast photo handler carries that message as
`details` too. A 500 answer of the global error handler has no `details`, has
the message of the error (or `Internal Server Error`) as `error`, and has a
`stack` only when `NODE_ENV` is `development`, so none in production. -/
theorem error_answers_diagnostics (nodeEnv : Option JsString) (error : JsError) :
    uploadCatch nodeEnv error =
      { status := 500
        body := .object [("success".toList, .bool false),
          ("error".toList, .str "Failed to upload image".toList),
          ("details".toList, .str error.message)] } ∧
    validateUrlCatch nodeEnv error =
      { status := 500
        body := .object [("success".toList, .bool false),
          ("error".toList, .str "Failed to validate URL".toList),
          ("details".toList, .str error.message)] } ∧
    (toastPhotoCatch nodeEnv error).status = 500 ∧
    (toastPhotoCatch nodeEnv error).body.get "details".toList = .str error.message ∧
    (∀ r : Response, globalErrorHandler nodeEnv error = some r → r.status = 500 →
      "details".toList ∉ r.body.keys ∧
      r.body.get "error".toList =
        .str (if error.message.isEmpty then "Internal Server Error".toList
          else error.message) ∧
      ("stack".toList ∈ r.body.keys → nodeEnv = some "development".toList) ∧
      (nodeEnv = some "production".toList → "stack".toList ∉ r.body.keys)) := by
  refine ⟨by rfl, by rfl, by rfl, by rfl, ?_⟩
  intro r hr hs
  unfold globalErrorHandler at hr
  by_cases h1 : (error.name == "ValidationError".toList) = true
  · rw [if_pos h1] at hr
    cases hv : error.validationMessages with
    | none => rw [hv] at hr; cases hr
    | some errors =>
      rw [hv] at hr
      injection hr with hr
      subst hr
      cases hs
  rw [if_neg h1] at hr
  by_cases h2 : (error.name == "CastError".toList) = true
  · rw [if_pos h2] at hr
    injection hr with hr
    subst hr
    cases hs
  rw [if_neg h2] at hr
  by_cases h3 : isDuplicateKeyCode error.code = true
  · rw [if_pos h3] at hr
    cases hk : error.duplicateKeys with
    | none => rw [hk] at hr; cases hr
    | some keys =>
      rw [hk] at hr
      injection hr with hr
      subst hr
      cases hs
  rw [if_neg h3] at hr
  by_cases h4 : (decide (defaultStatus error < 100) || decide (defaultStatus error > 999)) = true
  · rw [if_pos h4] at hr
    cases hr
  rw [if_neg h4] at hr
  injection hr with hr
  subst hr
  by_cases hdev : nodeEnv = some "development".toList
  · subst hdev
    refine ⟨?_, by rfl, fun _ => rfl, fun h => absurd h (by decide)⟩
    show ¬ ("details".toList ∈ ["error".toList, "stack".toList])
    decide
  · have hb : (nodeEnv == some "development".toList) = false := by
      simpa using hdev
    simp only [hb]
    refine ⟨?_, by rfl, fun h => ?_, fun _ => ?_⟩
    · show ¬ ("details".toList ∈ ["error".toList])
      decide
    · have h4 : "stack".toList ∈ ["error".toList] := h
      exact absurd h4 (by decide)
    · show ¬ ("stack".toList ∈ ["error".toList])
      decide

/-! ## Claims on the `photo` paths -/

/-- C12 fails as stated: the `photo` path of the toast schema has no validator,
so a toast with the photo `not a url` is accepted; the photo is not empty, and
under every classifier that rejects this string the toast breaks the
invariant. -/
theorem toastPhoto_accepts_unclassified :
    toastPhotoPathValid (some "not a url".toList) = true ∧
    "not a url".toList ≠ [] ∧
    ∀ isValidImageUrl : JsString → Bool, isValidImageUrl "not a url".toList = false →
      ¬ (toastPhotoPathValid (some "not a url".toList) = true →
        ("not a url".toList = [] ∨ isValidImageUrl "not a url".toList = true)) := by
  refine ⟨by rfl, by decide, ?_⟩
  intro isValidImageUrl hrej hclaim
  rcases hclaim (by rfl) with h | h
  · exact absurd h (by decide)
  · rw [hrej] at h
    cases h

/-- C12 (as amended). The `photo` path of a faculty member validates if and
only if the photo is absent, is the empty string or passes `isValidImageUrl`;
an absent or empty photo validates for a faculty member and for a toast. The
`photo` path of a toast validates for every string. -/
theorem photoPath_invariant (isValidImageUrl : JsString → Bool) (photo : Option JsString) :
    (facultyPhotoPathValid isValidImageUrl photo = true ↔
      (photo = none ∨ photo = some [] ∨
        ∃ v, photo = some v ∧ isValidImageUrl v = true)) ∧
    facultyPhotoPathValid isValidImageUrl none = true ∧
    facultyPhotoPathValid isValidImageUrl (some []) = true ∧
    toastPhotoPathValid none = true ∧
    toastPhotoPathValid (some []) = true ∧
    toastPhotoPathValid photo = true := by
  refine ⟨?_, by rfl, by rfl, by rfl, by rfl, ?_⟩
  · cases photo with
    | none => simp [facultyPhotoPathValid]
    | some v =>
      cases v with
      | nil => simp [facultyPhotoPathValid, facultyPhotoValidator]
      | cons c s => simp [facultyPhotoPathValid, facultyPhotoValidator]
  · cases photo <;> rfl

/-! ## Claims on the error envelope -/

/-- C13 fails as stated. With a file attached that has no path, the 400 answer
of the toast photo handler has the extra field `debug`, and its 500 answer has
the extra field `stack`. An upload whose file the filter rejects is answered
with 500 and the single field `error`, without `success`. None of the three
has the shape of the envelope. -/
theorem toastPhoto_answers_not_envelope :
    (toastPhotoHandler (.object [("fieldname".toList, .str "photo".toList)])).status = 400 ∧
    (toastPhotoHandler (.object [("fieldname".toList, .str "photo".toList)])).body.keys =
      ["success".toList, "error".toList, "debug".toList] ∧
    isErrorEnvelope
      (toastPhotoHandler (.object [("fieldname".toList, .str "photo".toList)])).body = false ∧
    (toastPhotoCatch none sampleError).status = 500 ∧
    (toastPhotoCatch none sampleError).body.keys =
      ["success".toList, "error".toList, "details".toList, "stack".toList] ∧
    isErrorEnvelope (toastPhotoCatch none sampleError).body = false ∧
    uploadRejectedAnswer (some "production".toList) { mimetype := "text/plain".toList }
        "Error: Only image files are allowed!\n    at fileFilter".toList =
      some { status := 500
             body := .object [("error".toList,
               .str "Only image files are allowed!".toList)] } ∧
    isErrorEnvelope
      (.object [("error".toList, .str "Only image files are allowed!".toList)]) = false :=
  ⟨by rfl, by rfl, by rfl, by rfl, by rfl, by rfl, by rfl, by rfl⟩

theorem globalErrorHandler_no_success (nodeEnv : Option JsString) (error : JsError)
    (r : Response) (hr : globalErrorHandler nodeEnv error = some r) :
    r.body.get "success".toList = .undefined ∧ isErrorEnvelope r.body = false := by
  unfold globalErrorHandler at hr
  by_cases h1 : (error.name == "ValidationError".toList) = true
  · rw [if_pos h1] at hr
    cases hv : error.validationMessages with
    | none => rw [hv] at hr; cases hr
    | some errors =>
      rw [hv] at hr
      injection hr with hr
      subst hr
      exact ⟨by rfl, by rfl⟩
  rw [if_neg h1] at hr
  by_cases h2 : (error.name == "CastError".toList) = true
  · rw [if_pos h2] at hr
    injection hr with hr
    subst hr
    exact ⟨by rfl, by rfl⟩
  rw [if_neg h2] at hr
  by_cases h3 : isDuplicateKeyCode error.code = true
  · rw [if_pos h3] at hr
    cases hk : error.duplicateKeys with
    | none => rw [hk] at hr; cases hr
    | some keys =>
      rw [hk] at hr
      injection hr with hr
      subst hr
      exact ⟨by rfl, by rfl⟩
  rw [if_neg h3] at hr
  by_cases h4 : (decide (defaultStatus error < 100) || decide (defaultStatus error > 999)) = true
  · rw [if_pos h4] at hr
    cases hr
  rw [if_neg h4] at hr
  injection hr with hr
  subst hr
  cases hdev : (nodeEnv == some "development".toList) with
  | true => exact ⟨by rfl, by rfl⟩
  | false => exact ⟨by rfl, by rfl⟩

theorem uploadRejectedAnswer_of_not_image (nodeEnv : Option JsString) (incoming : IncomingFile)
    (stack : JsString) (h : ¬ List.IsPrefix "image/".toList incoming.mimetype) :
    ∃ r, uploadRejectedAnswer nodeEnv incoming stack = some r ∧ r.status = 500 ∧
      r.body.get "error".toList = .str "Only image files are allowed!".toList := by
  have hf : startsWith incoming.mimetype "image/".toList = false := by
    cases hs : startsWith incoming.mimetype "image/".toList with
    | false => rfl
    | true => exact absurd ((startsWith_iff_isPrefix _ _).1 hs) h
  have he : (fileFilter incoming).error = some "Only image files are allowed!".toList := by
    unfold fileFilter
    rw [hf]
    rfl
  unfold uploadRejectedAnswer
  rw [he]
  cases hdev : (nodeEnv == some "development".toList) with
  | true =>
    refine ⟨{ status := 500
              body := .object [("error".toList, .str "Only image files are allowed!".toList),
                ("stack".toList, .str stack)] }, ?_, by rfl, by rfl⟩
    show globalErrorHandler nodeEnv
      (plainError "Only image files are allowed!".toList stack) = _
    unfold globalErrorHandler
    rw [hdev]
    rfl
  | false =>
    refine ⟨{ status := 500
              body := .object [("error".toList,
                .str "Only image files are allowed!".toList)] }, ?_, by rfl, by rfl⟩
    show globalErrorHandler nodeEnv
      (plainError "Only image files are allowed!".toList stack) = _
    unfold globalErrorHandler
    rw [hdev]
    rfl

theorem toastPhotoHandler_bad_request (toastFile : JsValue)
    (hc : (!truthy toastFile || !truthy (toastFile.get "path".toList)) = true) :
    (toastPhotoHandler toastFile).status = 400 ∧
    (toastFile = .undefined →
      (toastPhotoHandler toastFile).body =
        .object [("success".toList, .bool false),
          ("error".toList, .str "No photo uploaded".toList)]) ∧
    (toastFile ≠ .undefined →
      (toastPhotoHandler toastFile).body =
        .object [("success".toList, .bool false),
          ("error".toList, .str "No photo uploaded".toList),
          ("debug".toList, jsonValue toastFile)]) ∧
    (isErrorEnvelope (toastPhotoHandler toastFile).body = true ↔ toastFile = .undefined) := by
  unfold toastPhotoHandler
  rw [if_pos hc]
  cases toastFile
  case undefined =>
    exact ⟨rfl, fun _ => rfl, fun h => absurd rfl h, fun _ => rfl, fun _ => rfl⟩
  all_goals
    refine ⟨rfl, ?_, fun _ => rfl, ?_, ?_⟩
    · intro h
      cases h
    · intro h
      exact absurd h Bool.false_ne_true
    · intro h
      cases h

/-- C13 (as amended). Every answer that the handler of `POST /api/upload` and
the handler of `POST /api/upload/validate-url` give themselves, other than the
success answer, and the answer of their `catch` blocks, has exactly the shape
`{success: false, error, details?}`. An error that middleware passes on
before the handler runs is answered by the global error handler, no answer of
which has a `success` field or the shape of the envelope: an upload whose file
the filter rejects is answered with 500 and the error
`Only image files are allowed!`. The photo
handler of `routes/toast.js`, a router `server.js` does not mount, answers 200
or 400; its 400 answer is `{success: false, error: 'No photo uploaded'}` when
`req.file` is undefined and has the one further field `debug`, the file as
serialised, otherwise, so it has the shape of the envelope exactly when no
file is attached. Its 500 answer has `success: false`, a string `error` and a
string `details`. -/
theorem error_envelope_routes (urlParses : JsString → Bool) (url : JsValue)
    (file : Option StoredFile) (toastFile : JsValue) (nodeEnv : Option JsString)
    (error : JsError) (incoming : IncomingFile) (stack : JsString) :
    ((uploadHandler file).status = 200 ∨ isErrorEnvelope (uploadHandler file).body = true) ∧
    isErrorEnvelope (uploadCatch nodeEnv error).body = true ∧
    ((validateUrlHandler urlParses url).status = 200 ∨
      isErrorEnvelope (validateUrlHandler urlParses url).body = true) ∧
    isErrorEnvelope (validateUrlCatch nodeEnv error).body = true ∧
    (∀ r : Response, globalErrorHandler nodeEnv error = some r →
      r.body.get "success".toList = .undefined ∧ isErrorEnvelope r.body = false) ∧
    (¬ List.IsPrefix "image/".toList incoming.mimetype →
      ∃ r, uploadRejectedAnswer nodeEnv incoming stack = some r ∧ r.status = 500 ∧
        r.body.get "error".toList = .str "Only image files are allowed!".toList ∧
        r.body.get "success".toList = .undefined ∧ isErrorEnvelope r.body = false) ∧
    (∀ mounted ∈ mountedRouters, mounted.2 ≠ "./routes/toast".toList) ∧
    ((toastPhotoHandler toastFile).status = 200 ∨
      ((toastPhotoHandler toastFile).status = 400 ∧
        (toastFile = .undefined →
          (toastPhotoHandler toastFile).body =
            .object [("success".toList, .bool false),
              ("error".toList, .str "No photo uploaded".toList)]) ∧
        (toastFile ≠ .undefined →
          (toastPhotoHandler toastFile).body =
            .object [("success".toList, .bool false),
              ("error".toList, .str "No photo uploaded".toList),
              ("debug".toList, jsonValue toastFile)]) ∧
        (isErrorEnvelope (toastPhotoHandler toastFile).body = true ↔
          toastFile = .undefined))) ∧
    ((toastPhotoCatch nodeEnv error).status = 500 ∧
      ((toastPhotoCatch nodeEnv error).body.get "success".toList).isFalse = true ∧
      ((toastPhotoCatch nodeEnv error).body.get "error".toList).isStr = true ∧
      ((toastPhotoCatch nodeEnv error).body.get "details".toList).isStr = true) := by
  refine ⟨?_, by rfl, ?_, by rfl, ?_, ?_, by decide, ?_, by rfl, by rfl, by rfl, by rfl⟩
  · cases file with
    | none => exact Or.inr (by rfl)
    | some f => exact Or.inl (by rfl)
  · unfold validateUrlHandler
    cases ht : truthy url with
    | false => exact Or.inr (by rfl)
    | true =>
      cases hs : toStr url with
      | error e => exact Or.inr (by rfl)
      | ok text =>
        cases hp : urlParses text with
        | false =>
          refine Or.inr ?_
          simp only [hp]
          rfl
        | true =>
          cases hi : isImageUrl url with
          | ok b =>
            refine Or.inl ?_
            simp only [hp]
            rfl
          | error message =>
            refine Or.inr ?_
            simp only [hp]
            rfl
  · intro r hr
    exact globalErrorHandler_no_success nodeEnv error r hr
  · intro h
    obtain ⟨r, hr, hs, he⟩ := uploadRejectedAnswer_of_not_image nodeEnv incoming stack h
    refine ⟨r, hr, hs, he, ?_⟩
    unfold uploadRejectedAnswer at hr
    cases hf : (fileFilter incoming).error with
    | none => rw [hf] at hr; cases hr
    | some message =>
      rw [hf] at hr
      exact globalErrorHandler_no_success nodeEnv _ r hr
  · cases hc : (!truthy toastFile || !truthy (toastFile.get "path".toList)) with
    | false =>
      refine Or.inl ?_
      unfold toastPhotoHandler
      rw [hc]
      rfl
    | true => exact Or.inr (toastPhotoHandler_bad_request toastFile hc)

/-! ## The empty identifier -/

/-- C14. For every string containing `cloudinary.com` whose first `upload`
segment is the last segment, or is followed only by an empty segment or only
by one version tag, `extractPublicId` returns the empty string, not null. -/
theorem extractPublicId_empty (s : JsString) (pre rest : List JsString)
    (hcdn : includes s "cloudinary.com".toList = true)
    (hsplit : split '/' s = pre ++ "upload".toList :: rest)
    (hpre : "upload".toList ∉ pre)
    (hrest : rest = [] ∨ rest = [[]] ∨ ∃ v, IsVersionTag v ∧ rest = [v]) :
    extractPublicId (.str s) = .str [] ∧ extractPublicId (.str s) ≠ .null := by
  have key : extractPublicId (.str s) = .str [] := by
    rw [extractPublicId_of_split s pre rest hcdn hsplit hpre]
    rcases hrest with h | h | ⟨v, hv, h⟩
    · subst h; rfl
    · subst h; rfl
    · subst h
      rw [versionStartIndex_of_tag v [] hv]
      rfl
  refine ⟨key, ?_⟩
  rw [key]
  intro h
  cases h

/-- Witness of C14: `https://res.cloudinary.com/demo/image/upload/v123`, whose
marker is followed only by a version tag. -/
theorem extractPublicId_empty_witness :
    extractPublicId (.str "https://res.cloudinary.com/demo/image/upload/v123".toList) =
      .str [] ∧
    extractPublicId (.str "https://res.cloudinary.com/demo/image/upload/v123".toList) ≠
      .null :=
  extractPublicId_empty "https://res.cloudinary.com/demo/image/upload/v123".toList
    ["https:".toList, [], "res.cloudinary.com".toList, "demo".toList, "image".toList]
    ["v123".toList] (by decide) (by rfl) (by decide)
    (Or.inr (Or.inr ⟨"v123".toList, (matchVersion_iff _).1 (by decide), rfl⟩))

/-- The marker as the last segment, and the marker followed by one empty
segment, give the empty string as well. -/
theorem extractPublicId_empty_examples :
    extractPublicId (.str "https://res.cloudinary.com/demo/image/upload".toList) = .str [] ∧
    extractPublicId (.str "https://res.cloudinary.com/demo/image/upload/".toList) = .str [] :=
  ⟨by rfl, by rfl⟩

end CSquare
